import Mathlib

/-!
Verification of the natural-language specification of the VLC Lua extension
manager (`src/modules/misc/lua/extension.c`) and of the zip access module
embedded in the same source file, against a shallow embedding of that code
in Lean 4.

The embedding translates the C functions the claims are about into pure
Lean functions.  Lua-interpreter behaviour (whether a global is a function,
whether a call raises, what a call returns) is abstracted into an explicit
`LuaWorld` record; the C control flow over that behaviour is translated
verbatim.  Paths on which the C code exhibits undefined behaviour (reads
past a buffer, uses of uninitialised values, calls through a NULL
`lua_State`) are mapped to explicit `undef`/`ub` outcomes.
-/

/-- VLC result codes (from `vlc_common.h`, not under `src/`; only the values
`VLC_SUCCESS = 0` and a distinct negative generic error code matter here). -/
def VLC_SUCCESS : Int := 0

/-- Generic VLC error code, negative. -/
def VLC_EGENERIC : Int := -1

/-- Capability flag `EXT_HAS_MENU = 1 << 0` (extension.c line 41). -/
def EXT_HAS_MENU : Nat := 1

/-- Capability flag `EXT_TRIGGER_ONLY = 1 << 1` (extension.c line 42). -/
def EXT_TRIGGER_ONLY : Nat := 2

/-- Capability flag `EXT_INPUT_LISTENER = 1 << 2` (extension.c line 43). -/
def EXT_INPUT_LISTENER : Nat := 4

/-- The mutable per-extension state touched by the functions under study:
`p_ext->p_sys->L` (modelled as the Boolean "a live Lua state exists"),
`p_ext->p_sys->b_exiting`, the extension's membership in the manager's
activated list (`IsActivated`), and the immutable capability bitset
`p_ext->p_sys->i_capabilities`. -/
structure ExtState where
  activated : Bool
  exiting : Bool
  hasL : Bool
  caps : Nat
  deriving DecidableEq, Repr

/-- One key/value pair produced by `lua_next` while walking the table the
script's `menu()` function returned: `good key label` is an entry whose key
passes `lua_isnumber` and whose value passes `lua_isstring` (the key as a
`lua_Integer`, i.e. a signed machine integer); `bad` is any entry failing
one of those two checks. -/
inductive MEntry where
  | good (key : Int) (label : String)
  | bad
  deriving DecidableEq, Repr

/-- The value the script's `menu()` function returns: a table or something
that is not a table.  A table is modelled by what the two interpreter
calls the C code makes report about it: `objlen` is the value of
`lua_objlen( L, -1 )` — a border of the table's array part, equal to the
entry count on a dense sequence table `{1..n}` but possibly smaller on
other tables (0 whenever `t[1]` is nil, e.g. on any hash-only table such
as `{[70000]="a"}`) — and `entries` is the `lua_next` iteration
sequence. -/
inductive MenuRet where
  | table (objlen : Nat) (entries : List MEntry)
  | notTable
  deriving DecidableEq, Repr

/-- Abstraction of everything the Lua interpreter decides for one extension:
whether `luaL_newstate` succeeds, whether `luaL_dofile` on the script
succeeds, which global names are functions, which calls raise, and what
the `menu()` function returns.  The C control flow over these answers is
translated verbatim. -/
structure LuaWorld where
  allocOk : Bool
  dofileOk : Bool
  funcs : List String
  raises : List String
  menuRet : MenuRet
  deriving DecidableEq, Repr

/-- Result of `LockExtension` in the two-observation model: whether the
function returned `true`, and whether the caller holds the running-lock
when the function returns. -/
structure LockRes where
  ok : Bool
  held : Bool
  deriving DecidableEq, Repr

/-- `LockExtension` (extension.c lines 886-899).  The function reads
`b_exiting` twice: once before taking the running-lock mutex and once
right after acquiring it.  Because another thread may set the flag while
this one blocks on the mutex, the two observations are independent inputs:
`exitBefore` is the value read by the first check, `exitAfter` the value
read by the second.  If the first check sees the flag, the function
returns `false` without touching the mutex; if the second check sees it,
the function unlocks the mutex it had just acquired and returns `false`;
otherwise it returns `true` with the mutex held. -/
def LockExtension (exitBefore exitAfter : Bool) : LockRes :=
  if exitBefore then ⟨false, false⟩
  else if exitAfter then ⟨false, false⟩
  else ⟨true, true⟩

/-- Result of `GetLuaState` (extension.c lines 641-713), enriched with how
the result was obtained: `existing` = `p_ext->p_sys->L` was non-NULL and is
returned as-is; `created` = a fresh `lua_State` was allocated, the standard
libraries loaded and the script re-run, successfully; `failedAlloc` =
`luaL_newstate` returned NULL (no state was created); `failedScript` = a
fresh state WAS created and the script run, but `luaL_dofile` failed, so
the function returns NULL (and does not store the state). -/
inductive GLSRes where
  | existing
  | created
  | failedAlloc
  | failedScript
  deriving DecidableEq, Repr

/-- Does a `GLSRes` mean `GetLuaState` returned a usable (non-NULL) state? -/
def GLSRes.some : GLSRes → Bool
  | .existing => true
  | .created => true
  | .failedAlloc => false
  | .failedScript => false

/-- Did the `GetLuaState` call create a fresh Lua state (running
`luaL_newstate`, `luaL_openlibs`, the capability-module loaders, and
`luaL_dofile` on the script)?  True both when creation fully succeeded and
when the script load failed after the state had been made. -/
def GLSRes.createdState : GLSRes → Bool
  | .existing => false
  | .created => true
  | .failedAlloc => false
  | .failedScript => true

/-- `GetLuaState(p_mgr, p_ext)` with `p_ext != NULL` (extension.c lines
641-713): if `p_ext->p_sys->L` is non-NULL it is returned unchanged;
otherwise a new state is created, libraries are opened, and the script is
re-run with `luaL_dofile`; on dofile failure NULL is returned and
`p_ext->p_sys->L` stays NULL; on success the new state is stored. -/
def GetLuaState (st : ExtState) (w : LuaWorld) : GLSRes × ExtState :=
  if st.hasL then (.existing, st)
  else if ¬ w.allocOk then (.failedAlloc, st)
  else if ¬ w.dofileOk then (.failedScript, st)
  else (.created, { st with hasL := true })

/-- Outcome of a call into the interpreter: a VLC result code, or undefined
behaviour (`ub`, e.g. calling `lua_getglobal` on a NULL state). -/
inductive ERes where
  | r (i : Int)
  | ub
  deriving DecidableEq, Repr

/-- `lua_ExecuteFunction` (extension.c lines 721-750): gets the Lua state
via `GetLuaState`, looks up the named global, and calls it with no
arguments; returns `VLC_EGENERIC` if the global is not a function or the
call raises, `VLC_SUCCESS` otherwise.  The C code does not NULL-check the
state returned by `GetLuaState`, so if state creation failed the
subsequent `lua_getglobal` call is undefined behaviour (`ub`). -/
def lua_ExecuteFunction (st : ExtState) (w : LuaWorld) (name : String) :
    ERes × ExtState :=
  let (g, st') := GetLuaState st w
  if ¬ g.some then (.ub, st')
  else if ¬ w.funcs.contains name then (.r VLC_EGENERIC, st')
  else if w.raises.contains name then (.r VLC_EGENERIC, st')
  else (.r VLC_SUCCESS, st')

/-- `lua_ExtensionDeactivate` (extension.c lines 507-521): if the extension
has no live Lua state, return `VLC_SUCCESS` at once; otherwise run the
script's `deactivate` function via `lua_ExecuteFunction`, then
unconditionally `lua_close` the state and set `p_ext->p_sys->L = NULL`,
returning the result of the function call.  (With a live state,
`lua_ExecuteFunction` cannot hit its NULL-state path, so the `ub` arm
below is unreachable; it is kept to mirror the call structure.) -/
def lua_ExtensionDeactivate (st : ExtState) (w : LuaWorld) : ERes × ExtState :=
  if ¬ st.hasL then (.r VLC_SUCCESS, st)
  else
    let (res, st') := lua_ExecuteFunction st w "deactivate"
    match res with
    | .ub => (.ub, st')
    | .r i => (.r i, { st' with hasL := false })

/-- C2: after `lua_ExtensionDeactivate` completes, the extension holds no
live Lua state, for every initial state and every interpreter behaviour
(the `deactivate` function may be missing, may raise, or may succeed). -/
theorem deactivate_clears_state (st : ExtState) (w : LuaWorld) :
    ((lua_ExtensionDeactivate st w).2).hasL = false := by
  unfold lua_ExtensionDeactivate lua_ExecuteFunction GetLuaState
  by_cases h : st.hasL <;>
    by_cases hf : "deactivate" ∈ w.funcs <;>
    by_cases hr : "deactivate" ∈ w.raises <;>
    simp [h, hf, hr, GLSRes.some]

/-- C3: whenever the exiting flag is observably true at the time of the
call — at the check before taking the mutex or at the check right after
acquiring it — `LockExtension` returns failure and the caller does not
hold the running-lock. -/
theorem lockExtension_exiting_fails (b a : Bool) (h : b = true ∨ a = true) :
    LockExtension b a = ⟨false, false⟩ := by
  unfold LockExtension
  rcases h with h | h <;> simp [h]

/-- Witness for C3 at the concrete observation pair (false, true). -/
theorem lockExtension_exiting_fails_w :
    LockExtension false true = ⟨false, false⟩ :=
  lockExtension_exiting_fails false true (Or.inr rfl)

/-- C4 counterexample: a thread that entered `LockExtension` while the
exiting flag was still false (first check passes) and acquires the mutex
only after the flag has been set (second check sees `true`) does NOT
succeed: the function returns `false` and releases the lock, contradicting
the claim that such a blocked thread still proceeds. -/
theorem lockExtension_blocked_cex :
    (LockExtension false true).ok = false ∧
      (LockExtension false true).held = false := by
  constructor <;> rfl

/-- C4 amended: a thread that entered `LockExtension` while the exiting
flag was false succeeds exactly when the flag is still false at the
post-acquisition check; if the flag was set while the thread was blocked
on the mutex, the call fails and the lock is released. -/
theorem lockExtension_blocked_amended (a : Bool) :
    LockExtension false a = ⟨!a, !a⟩ := by
  unfold LockExtension
  cases a <;> rfl

/-- Outcome of the menu-table walk: the stored (label, id) pairs in order;
`badEntry` when a malformed entry aborted the call (`goto exit`,
`VLC_EGENERIC`); `overflow` when the walk reached an entry whose index is
not below `i_size` — there the source's `assert( i_idx < i_size )` fires
(abort with assertions enabled; with `NDEBUG` the subsequent stores run
past the `calloc( i_size + 1, ... )` arrays), so the program has no
defined result. -/
inductive WalkRes where
  | ok (out : List (String × Nat))
  | badEntry
  | overflow
  deriving DecidableEq, Repr

/-- The menu-table walk inside `GetMenuEntries` (extension.c lines
592-613): `i_size = lua_objlen( L, -1 )`; the title and id arrays are
`calloc`'d with `i_size + 1` slots; then each iteration FIRST asserts
`i_idx < i_size` (so with the bound exhausted and entries remaining the
result is `overflow`, whatever the remaining entries look like), then
aborts on a malformed entry (non-string value or non-numeric key), and
otherwise stores the label and the key masked to the low 16 bits,
`(uint16_t)( luaL_checkinteger( L, -2 ) & 0xFFFF )`.  The two's-
complement bitmask equals the nonnegative remainder modulo 2^16. -/
def menuWalk : Nat → List MEntry → WalkRes
  | _, [] => .ok []
  | 0, _ :: _ => .overflow
  | _ + 1, .bad :: _ => .badEntry
  | n + 1, .good k s :: rest =>
    match menuWalk n rest with
    | .ok l => .ok ((s, (k % 65536).toNat) :: l)
    | r => r

/-- What a `GetMenuEntries` call did and returned: the result code, whether
and how `GetLuaState` was invoked, whether the script's `menu()` function
was actually called (`lua_pcall`), the parallel title/id arrays on
success, and whether the C code hit undefined behaviour — calling
`lua_getglobal` through a NULL state, or walking past the
`assert( i_idx < i_size )` bound.  When `ub` is true the program aborts
or corrupts memory, so the other fields carry no defined C result. -/
structure GMERes where
  ret : Int
  glsCalled : Bool := false
  gls : Option GLSRes := none
  menuCalled : Bool := false
  titles : List String := []
  ids : List Nat := []
  ub : Bool := false
  deriving DecidableEq, Repr

/-- `GetMenuEntries` (extension.c lines 544-638), translated branch by
branch: fail if the extension is not activated; fail if `LockExtension`
fails (in this sequential model both of its observations read the same
`exiting` flag); then call `GetLuaState` — note this happens BEFORE the
capability test, exactly as in the source (line 563 vs line 565) — then
fail if the extension lacks `EXT_HAS_MENU`; then look up and call the
global `menu` and walk the returned table.  The second component is the
extension state on return (a Lua state created by `GetLuaState` stays). -/
def GetMenuEntries (st : ExtState) (w : LuaWorld) : GMERes × ExtState :=
  if ¬ st.activated then ({ ret := VLC_EGENERIC }, st)
  else if ¬ (LockExtension st.exiting st.exiting).ok then
    ({ ret := VLC_EGENERIC }, st)
  else
    let (g, st') := GetLuaState st w
    if st.caps &&& EXT_HAS_MENU = 0 then
      ({ ret := VLC_EGENERIC, glsCalled := true, gls := some g }, st')
    else if ¬ g.some then
      -- the source does not NULL-check `GetLuaState`'s result before
      -- `lua_getglobal( L, "menu" )`
      ({ ret := VLC_EGENERIC, glsCalled := true, gls := some g, ub := true },
        st')
    else if ¬ w.funcs.contains "menu" then
      ({ ret := VLC_EGENERIC, glsCalled := true, gls := some g }, st')
    else if w.raises.contains "menu" then
      ({ ret := VLC_EGENERIC, glsCalled := true, gls := some g,
         menuCalled := true }, st')
    else
      match w.menuRet with
      | .notTable =>
        ({ ret := VLC_EGENERIC, glsCalled := true, gls := some g,
           menuCalled := true }, st')
      | .table sz entries =>
        match menuWalk sz entries with
        | .badEntry =>
          ({ ret := VLC_EGENERIC, glsCalled := true, gls := some g,
             menuCalled := true }, st')
        | .overflow =>
          ({ ret := VLC_EGENERIC, glsCalled := true, gls := some g,
             menuCalled := true, ub := true }, st')
        | .ok l =>
          ({ ret := VLC_SUCCESS, glsCalled := true, gls := some g,
             menuCalled := true, titles := l.map Prod.fst,
             ids := l.map Prod.snd }, st')

/-- `lua_ExtensionTriggerMenu` (extension.c lines 757-793): `i_ret` is
initialised to `VLC_EGENERIC`; the function returns `VLC_EGENERIC` early
when `GetLuaState` yields NULL, when the global `trigger_menu` is not a
function, or when calling it raises; and on the path where the call
completes it returns `i_ret`, which was never reassigned.  The `id`
argument is pushed as the function's argument and plays no role in the
result. -/
def lua_ExtensionTriggerMenu (st : ExtState) (w : LuaWorld) (id : Int) :
    Int × ExtState :=
  let i_ret := VLC_EGENERIC
  let (g, st') := GetLuaState st w
  if ¬ g.some then (VLC_EGENERIC, st')
  else if ¬ w.funcs.contains "trigger_menu" then (VLC_EGENERIC, st')
  else if w.raises.contains "trigger_menu" then (VLC_EGENERIC, st')
  else (i_ret, st')

/-- C1 counterexample: for the concrete extension state (activated, not
exiting, no live Lua state, capability bitset `EXT_TRIGGER_ONLY` — so the
has-menu flag is absent) and an interpreter in which state creation and
script loading succeed, `GetMenuEntries` does return an error, but its
`GetLuaState` call CREATED a fresh Lua state and ran the script before
the capability check, contradicting "without creating or calling into a
Lua state". -/
theorem getMenuEntries_no_menu_cex :
    ((GetMenuEntries ⟨true, false, false, EXT_TRIGGER_ONLY⟩
        ⟨true, true, [], [], .notTable⟩).1).ret = VLC_EGENERIC ∧
    ((GetMenuEntries ⟨true, false, false, EXT_TRIGGER_ONLY⟩
        ⟨true, true, [], [], .notTable⟩).1).gls = some GLSRes.created ∧
    GLSRes.createdState GLSRes.created = true := by
  decide

/-- C1 amended: for every extension whose capability bitset lacks the
has-menu flag, `GetMenuEntries` returns an error and never calls the
script's `menu()` function; however, when the extension is activated and
lockable it first invokes `GetLuaState`, which creates a Lua state and
runs the script's top level if none exists yet. -/
theorem getMenuEntries_no_menu_amended (st : ExtState) (w : LuaWorld)
    (h : st.caps &&& EXT_HAS_MENU = 0) :
    ((GetMenuEntries st w).1).ret = VLC_EGENERIC ∧
      ((GetMenuEntries st w).1).menuCalled = false ∧
      (st.activated = true → st.exiting = false →
        ((GetMenuEntries st w).1).glsCalled = true) := by
  unfold GetMenuEntries
  by_cases ha : st.activated <;>
    by_cases he : st.exiting <;>
      simp [ha, he, LockExtension, h]

/-- Witness for C1's amended theorem at a concrete activated, non-exiting
extension with a live state and an empty capability bitset. -/
theorem getMenuEntries_no_menu_amended_w :
    (0 : Nat) &&& EXT_HAS_MENU = 0 ∧
      ((GetMenuEntries ⟨true, false, true, 0⟩
          ⟨true, true, [], [], .notTable⟩).1).ret = VLC_EGENERIC ∧
      ((GetMenuEntries ⟨true, false, true, 0⟩
          ⟨true, true, [], [], .notTable⟩).1).menuCalled = false ∧
      (true = true → false = false →
        ((GetMenuEntries ⟨true, false, true, 0⟩
            ⟨true, true, [], [], .notTable⟩).1).glsCalled = true) :=
  ⟨by decide,
   getMenuEntries_no_menu_amended ⟨true, false, true, 0⟩
     ⟨true, true, [], [], .notTable⟩ (by decide)⟩

/-- C9: `lua_ExtensionTriggerMenu` returns `VLC_EGENERIC` for every
extension state, every interpreter behaviour and every menu id — also on
the path where the state is available, `trigger_menu` is found and the
call completes without raising, since `i_ret` is never set to success. -/
theorem triggerMenu_always_fails (st : ExtState) (w : LuaWorld) (id : Int) :
    (lua_ExtensionTriggerMenu st w id).1 = VLC_EGENERIC := by
  unfold lua_ExtensionTriggerMenu
  by_cases hg : (GetLuaState st w).1.some <;>
    by_cases hf : "trigger_menu" ∈ w.funcs <;>
    by_cases hr : "trigger_menu" ∈ w.raises <;>
    simp [hg, hf, hr]

/-- The menu walk on a list of well-formed entries, with the `lua_objlen`
bound equal to the entry count (its value on a dense sequence table),
never aborts and stores each key reduced modulo 2^16, paired with its
label. -/
theorem menuWalk_good (entries : List (Int × String)) :
    menuWalk entries.length (entries.map (fun e => MEntry.good e.1 e.2)) =
      WalkRes.ok (entries.map (fun e => (e.2, (e.1 % 65536).toNat))) := by
  induction entries with
  | nil => rfl
  | cons e rest ih => simp [menuWalk, ih]

/-- C10 counterexample: the menu table `{ [70000] = "a" }` has exactly one
entry, and that entry is well formed (numeric key, string value), so by
the claim its key must be stored truncated to `70000 & 0xFFFF = 4464`.
But on this hash-only table `lua_objlen` returns the border 0 (`t[1]` is
nil), so the walk's very first iteration violates
`assert( i_idx < i_size )`: the program aborts under assertions and
otherwise stores past its 1-slot arrays (`ub = true`), and no truncated
id is ever produced (`ids = []`). -/
theorem getMenuEntries_sparse_cex :
    ((GetMenuEntries ⟨true, false, true, 1⟩
        ⟨true, true, ["menu"], [], .table 0 [.good 70000 "a"]⟩).1).ub =
      true ∧
    ((GetMenuEntries ⟨true, false, true, 1⟩
        ⟨true, true, ["menu"], [], .table 0 [.good 70000 "a"]⟩).1).ids =
      [] := by
  decide

/-- C10 amended: for a menu table all of whose entries are well formed
(numeric key, string value) and whose `lua_objlen` value equals the entry
count — as on a dense sequence table, the shape for which the
`calloc( i_size + 1 )` arrays and `assert( i_idx < i_size )` are adequate
— `GetMenuEntries` on an activated, non-exiting, menu-capable extension
with a live interpreter succeeds without undefined behaviour and stores
into the ids array each key reduced to its low 16 bits (`key & 0xFFFF`,
i.e. the remainder modulo 2^16), truncating rather than rejecting large
keys; a table with more entries than `lua_objlen` reports instead trips
the assert (see the counterexample). -/
theorem getMenuEntries_ids_low16 (st : ExtState) (w : LuaWorld)
    (entries : List (Int × String))
    (hact : st.activated = true) (hex : st.exiting = false)
    (hL : st.hasL = true) (hmenu : st.caps &&& EXT_HAS_MENU ≠ 0)
    (hf : "menu" ∈ w.funcs) (hr : "menu" ∉ w.raises)
    (htab : w.menuRet =
      .table entries.length (entries.map (fun e => MEntry.good e.1 e.2))) :
    ((GetMenuEntries st w).1).ret = VLC_SUCCESS ∧
      ((GetMenuEntries st w).1).ids =
        entries.map (fun e => (e.1 % 65536).toNat) ∧
      ((GetMenuEntries st w).1).ub = false := by
  unfold GetMenuEntries GetLuaState
  simp [hact, hex, hL, hmenu, hf, hr, htab, LockExtension, GLSRes.some,
    menuWalk_good]

/-- Witness for C10's amended theorem at the dense two-entry sequence
table `{ "a", "b" }` (keys 1 and 2, `lua_objlen = 2`): the call succeeds,
stores ids `[1, 2]`, and hits no undefined behaviour. -/
theorem getMenuEntries_ids_low16_w :
    ((GetMenuEntries ⟨true, false, true, 1⟩
        ⟨true, true, ["menu"], [],
          .table 2 [.good 1 "a", .good 2 "b"]⟩).1).ret = VLC_SUCCESS ∧
    ((GetMenuEntries ⟨true, false, true, 1⟩
        ⟨true, true, ["menu"], [],
          .table 2 [.good 1 "a", .good 2 "b"]⟩).1).ids = [1, 2] ∧
    ((GetMenuEntries ⟨true, false, true, 1⟩
        ⟨true, true, ["menu"], [],
          .table 2 [.good 1 "a", .good 2 "b"]⟩).1).ub = false := by
  have h := getMenuEntries_ids_low16 ⟨true, false, true, 1⟩
    ⟨true, true, ["menu"], [], .table 2 [.good 1 "a", .good 2 "b"]⟩
    [((1 : Int), "a"), ((2 : Int), "b")] rfl rfl rfl (by decide) (by decide)
    (by decide) rfl
  simpa using h

/-- The capability vocabulary `ppsz_capabilities`
(extension.c lines 45-50), in array order. -/
def ppsz_capabilities : List String := ["menu", "trigger", "input-listener"]

/-- The inner loop of `ScanLuaCallback` over `ppsz_capabilities`
(extension.c lines 282-293): walk the vocabulary with a counter `i_cap`
starting at 0 and return the index of the first entry equal to the
capability name, or `none` when the list is exhausted. -/
def capSearch (i : Nat) : List String → String → Option Nat
  | [], _ => none
  | c :: rest, n => if c = n then some i else capSearch (i + 1) rest n

/-- One iteration of `ScanLuaCallback`'s capability walk (extension.c lines
275-301): on a recognized name, OR the flag `1 << i_cap` into the bitset;
on an unknown name, log and leave the bitset unchanged. -/
def scanCapability (acc : Nat) (name : String) : Nat :=
  match capSearch 0 ppsz_capabilities name with
  | some i => acc ||| (1 <<< i)
  | none => acc

/-- The capability bitset `ScanLuaCallback` accumulates into
`p_ext->p_sys->i_capabilities` for a descriptor whose `capabilities`
field iterates the given list of name strings. -/
def scanCapabilities (names : List String) : Nat :=
  names.foldl scanCapability 0

/-- The flag the CLAIM's wording assigns to one capability name: the bit
at the name's position in the fixed vocabulary
`{"menu", "trigger", "input-listener"}`, and no bit for any other name. -/
def specCapFlag (name : String) : Nat :=
  if name = "menu" then 1
  else if name = "trigger" then 2
  else if name = "input-listener" then 4
  else 0

/-- The vocabulary search resolves each of the three recognized names to
its array index and rejects every other name. -/
theorem capSearch_ppsz (name : String) :
    capSearch 0 ppsz_capabilities name =
      if name = "menu" then some 0
      else if name = "trigger" then some 1
      else if name = "input-listener" then some 2
      else none := by
  by_cases h1 : name = "menu"
  · subst h1; rfl
  · by_cases h2 : name = "trigger"
    · subst h2; rfl
    · by_cases h3 : name = "input-listener"
      · subst h3; rfl
      · have h1' : ("menu" : String) ≠ name := fun h => h1 h.symm
        have h2' : ("trigger" : String) ≠ name := fun h => h2 h.symm
        have h3' : ("input-listener" : String) ≠ name := fun h => h3 h.symm
        simp [ppsz_capabilities, capSearch, h1, h2, h3, h1', h2', h3']

/-- One scan step ORs in exactly the flag the spec assigns to the name. -/
theorem scanCapability_eq_or (acc : Nat) (name : String) :
    scanCapability acc name = acc ||| specCapFlag name := by
  unfold scanCapability specCapFlag
  rw [capSearch_ppsz]
  by_cases h1 : name = "menu" <;> by_cases h2 : name = "trigger" <;>
    by_cases h3 : name = "input-listener" <;>
    simp [h1, h2, h3, Nat.or_zero]

/-- C5 (generalised over the accumulator for the induction): folding the
scan step equals ORing in each name's spec flag. -/
theorem scanCapabilities_foldl (names : List String) (acc : Nat) :
    names.foldl scanCapability acc =
      names.foldl (fun a n => a ||| specCapFlag n) acc := by
  induction names generalizing acc with
  | nil => rfl
  | cons n rest ih => simp [List.foldl, scanCapability_eq_or, ih]

/-- C5: for every descriptor capability list, the bitset the scan stores in
the catalog entry is the bitwise OR, over the names appearing in the fixed
vocabulary, of the flag at the name's vocabulary position; names outside
the vocabulary contribute no bit. -/
theorem scanCapabilities_spec (names : List String) :
    scanCapabilities names =
      names.foldl (fun a n => a ||| specCapFlag n) 0 :=
  scanCapabilities_foldl names 0

/-- Modelled from the spec: `isAllowedChar`, the allow-list consulted by
`unescapeXml`, is defined in `zip.h`, which is not under `src/`.  The spec
only calls it "an allow-list" of characters valid in a locator; it is
modelled as the URL-safe characters a locator is built from: ASCII
letters, digits, and the path/URL punctuation.  The C6 counterexample
below does not depend on the contents of this set. -/
def isAllowedChar (c : Char) : Bool :=
  c.isAlpha || c.isDigit || c = '/' || c = '.' || c = ':' ||
    c = '_' || c = '-'

/-- The characters `isspace` accepts (the `%x` conversion of `sscanf`
skips leading white space). -/
def isSpaceByte (c : Char) : Bool :=
  c = ' ' || c = '\t' || c = '\n' || c = '\x0b' || c = '\x0c' || c = '\r'

/-- Value of a hexadecimal digit, `none` for a non-digit. -/
def hexVal (c : Char) : Option Nat :=
  if '0' ≤ c ∧ c ≤ '9' then some (c.toNat - 48)
  else if 'a' ≤ c ∧ c ≤ 'f' then some (c.toNat - 87)
  else if 'A' ≤ c ∧ c ≤ 'F' then some (c.toNat - 55)
  else none

/-- Result of `sscanf(s, "%02x", &v)`: `matched v` when a conversion
happened, with `v` the value stored through the `unsigned int *` argument
(reduced modulo 2^32); `fail0` on a matching failure (`sscanf` returns
0); and `failEOF` when the input ends before any character of the
conversion is read (`sscanf` returns `EOF`, i.e. -1). -/
inductive ScanRes where
  | matched (v : Nat)
  | fail0
  | failEOF
  deriving DecidableEq, Repr

/-- `sscanf(s, "%02x", &v)` on a byte string, per C11 7.21.6.2: `%x`
matches an OPTIONALLY SIGNED hexadecimal integer (the subject sequence of
`strtoul` with base 16), so a leading `'-'` or `'+'` is consumed and
counts against the field width 2; leading white space is skipped and does
not count.  One hex digit alone matches (the width is a maximum, not a
requirement), so after a sign at most one digit fits.  A negative subject
sequence stores the negated value in `unsigned int` arithmetic,
`(2^32 - d) mod 2^32`.  A sign followed by a non-digit, or a first
non-space character that is neither a sign nor a digit, is a matching
failure. -/
def sscanf2x : List Char → ScanRes
  | [] => .failEOF
  | c :: rest =>
    if isSpaceByte c then sscanf2x rest
    else if c = '-' then
      match rest with
      | [] => .fail0
      | c2 :: _ =>
        match hexVal c2 with
        | none => .fail0
        | some d => .matched ((2 ^ 32 - d) % 2 ^ 32)
    else if c = '+' then
      match rest with
      | [] => .fail0
      | c2 :: _ =>
        match hexVal c2 with
        | none => .fail0
        | some d => .matched d
    else
      match hexVal c with
      | none => .fail0
      | some d1 =>
        match rest with
        | [] => .matched d1
        | c2 :: _ =>
          match hexVal c2 with
          | none => .matched d1
          | some d2 => .matched (16 * d1 + d2)

/-- Outcome of `unescapeXml`: a decoded string, NULL (`err`), or undefined
behaviour (`undef`): the C code reads past the input's terminating NUL
byte whenever an escape starts at one of the last two positions, and uses
an uninitialised `i_value` when `sscanf` returns `EOF`. -/
inductive UR where
  | ok (out : List Char)
  | err
  | undef
  deriving DecidableEq, Repr

/-- The loop of `unescapeXml` (zipaccess.c part, lines 966-990), with the
output accumulated in reverse.  On `'?'` the code runs
`sscanf(++psz_iter, "%02x", &i_value)`; a return of 0 frees the output
and returns NULL; a return of `EOF` is NOT caught by `!sscanf(...)`
(EOF = -1), so the code continues with `i_value` uninitialised (`undef`).
After a matched escape the code stores `*psz_tmp = (char) i_value` — the
low byte, `v mod 256`, of the converted value — and the iterator has
advanced by exactly 3 from the `'?'`: two characters after it are
consumed whether or not both were part of the conversion, so if fewer
than two characters follow the `'?'` the next loop test reads past the
terminating NUL (`undef`).  A non-`'?'` character is copied if allowed,
else the whole decode fails. -/
def unescGo : List Char → List Char → UR
  | [], acc => UR.ok acc.reverse
  | c :: rest, acc =>
    if c = '?' then
      match sscanf2x rest with
      | .fail0 => UR.err
      | .failEOF => UR.undef
      | .matched v =>
        match rest with
        | [] => UR.undef
        | [_] => UR.undef
        | _ :: _ :: rest2 => unescGo rest2 (Char.ofNat (v % 256) :: acc)
    else if isAllowedChar c then unescGo rest (c :: acc)
    else UR.err

/-- `unescapeXml` (zipaccess.c part, lines 960-994), successful-allocation
path: decode the escape scheme with `?` as introducer. -/
def unescapeXml (cs : List Char) : UR :=
  unescGo cs []

/-- C6 counterexample: in the input `"?4z"` the `'?'` escape's two
following characters are `'4'` and `'z'`, and `'z'` is not a valid hex
digit, so by the claim the whole decode must fail; but `unescapeXml`
SUCCEEDS, returning the single byte 0x04 — `sscanf("%02x")` is satisfied
by the one digit `'4'`, and the `'z'` is consumed without ever being
checked.  (This is independent of the allow-list: all three input bytes
are consumed by the escape logic.) -/
theorem unescapeXml_cex :
    hexVal 'z' = none ∧
      unescapeXml ('?' :: '4' :: 'z' :: []) = UR.ok [Char.ofNat 4] := by
  decide

/-- On an escape-free suffix the loop copies allowed characters and fails
on the first disallowed one. -/
theorem unescGo_noEscape (cs : List Char) :
    ∀ acc : List Char, (∀ c ∈ cs, c ≠ '?') →
      unescGo cs acc =
        if cs.all isAllowedChar then UR.ok (acc.reverse ++ cs) else UR.err := by
  induction cs with
  | nil => intro acc _; simp [unescGo]
  | cons c rest ih =>
    intro acc h
    have hc : c ≠ '?' := h c (List.mem_cons_self c rest)
    have hrest : ∀ x ∈ rest, x ≠ '?' := fun x hx => h x (List.mem_cons_of_mem c hx)
    by_cases ha : isAllowedChar c
    · rw [show unescGo (c :: rest) acc = unescGo rest (c :: acc) by
        simp [unescGo, hc, ha]]
      rw [ih (c :: acc) hrest]
      simp [List.all_cons, ha]
    · simp [unescGo, hc, ha, List.all_cons]

/-- C6 amended: `unescapeXml` fails (returns NULL, never a partial string)
for every escape-free input containing a byte outside the allow-list, and
succeeds returning the input unchanged for every escape-free input of
allowed bytes; and a `'?'` whose very next character is neither white
space, nor a sign, nor a hex digit fails the whole decode.  But not every
malformed escape fails: a `'?'` followed by ONE hex digit and a non-hex
byte is accepted (see the counterexample), and so is a SIGNED hex number
— `%x` matches an optionally signed hexadecimal integer, so `"?-4"`
decodes to the low byte of `(unsigned)-4`, i.e. 0xFC = 252. -/
theorem unescapeXml_amended :
    (∀ cs : List Char, (∀ c ∈ cs, c ≠ '?') →
        unescapeXml cs =
          if cs.all isAllowedChar then UR.ok cs else UR.err) ∧
    (∀ (c : Char) (rest : List Char), hexVal c = none →
        isSpaceByte c = false → c ≠ '-' → c ≠ '+' →
        unescapeXml ('?' :: c :: rest) = UR.err) ∧
    unescapeXml ('?' :: '-' :: '4' :: []) = UR.ok [Char.ofNat 252] := by
  refine ⟨?_, ?_, by decide⟩
  · intro cs h
    have := unescGo_noEscape cs [] h
    simpa [unescapeXml] using this
  · intro c rest hc hs hm hp
    simp [unescapeXml, unescGo, sscanf2x, hc, hs, hm, hp]

/-- Witness for C6's amended theorem: the escape-free input `"a!"`
contains the disallowed byte `'!'` and fails; the escape-free allowed
input `"ab"` decodes to itself; and `"?zx"` (a `'?'` followed by `'z'`,
which is neither white space, nor a sign, nor a hex digit) fails. -/
theorem unescapeXml_amended_w :
    unescapeXml ('a' :: '!' :: []) = UR.err ∧
      unescapeXml ('a' :: 'b' :: []) = UR.ok ('a' :: 'b' :: []) ∧
      unescapeXml ('?' :: 'z' :: 'x' :: []) = UR.err := by
  refine ⟨?_, ?_, ?_⟩
  · rw [unescapeXml_amended.1 ('a' :: '!' :: []) (by decide)]; decide
  · rw [unescapeXml_amended.1 ('a' :: 'b' :: []) (by decide)]; decide
  · exact unescapeXml_amended.2.1 'z' ['x'] (by decide) (by decide) (by decide)
      (by decide)

/-- Modelled from the spec: the locator separator token `ZIP_SEP` is
defined in `zip.h`, which is not under `src/`; the spec fixes it to the
two-character token `"!/"`. -/
def ZIP_SEP : List Char := ['!', '/']

/-- `strstr`-style split of a locator at the FIRST occurrence of
`ZIP_SEP`, as `AccessOpen` does with `psz_sep = strstr(psz_path, ZIP_SEP)`
followed by `*psz_sep = '\0'` (archive path = text before the separator)
and `psz_sep + ZIP_SEP_LEN` (inner path = text after it); `none` when the
separator does not occur. -/
def splitFirst : List Char → Option (List Char × List Char)
  | [] => none
  | c :: rest =>
    if (c :: rest).take 2 = ZIP_SEP then some ([], rest.drop 1)
    else
      match splitFirst rest with
      | none => none
      | some (a, b) => some (c :: a, b)

/-- Outcome of the locator-handling prefix of `AccessOpen`: rejected as
not-for-this-module, split into the two unescaped components, or
undefined behaviour inside `unescapeXml`. -/
inductive OpenSplit where
  | notMine
  | paths (archive inner : List Char)
  | ub
  deriving DecidableEq, Repr

/-- The MRL handling of `AccessOpen` (zipaccess.c part, lines 1008-1047):
a location without `ZIP_SEP` is rejected with `VLC_EGENERIC` ("does not
contain separator", signalling the caller to try another handler);
otherwise the location is split at the first occurrence and each side is
passed through `unescapeXml`; when unescaping returns NULL the raw
component is used verbatim ("maybe this was not an encoded string"). -/
def accessOpenSplit (loc : List Char) : OpenSplit :=
  match splitFirst loc with
  | none => .notMine
  | some (rawA, rawB) =>
    match unescapeXml rawA, unescapeXml rawB with
    | .undef, _ => .ub
    | _, .undef => .ub
    | .ok a, .ok b => .paths a b
    | .ok a, .err => .paths a rawB
    | .err, .ok b => .paths rawA b
    | .err, .err => .paths rawA rawB

/-- C7: a locator without the separator is rejected as "not mine"; the
concrete locator `"/archive.zip!/dir/file.txt"` splits at the separator
into archive path `"/archive.zip"` and inner path `"dir/file.txt"`, each
independently unescaped; and a locator with two separator occurrences,
`"/a!/b!/c"`, splits at the FIRST one. -/
theorem accessOpen_split_spec :
    (∀ loc : List Char, splitFirst loc = none →
        accessOpenSplit loc = OpenSplit.notMine) ∧
      accessOpenSplit (String.toList "/archive.zip!/dir/file.txt") =
        OpenSplit.paths (String.toList "/archive.zip")
          (String.toList "dir/file.txt") ∧
      accessOpenSplit (String.toList "/a!/b!/c") =
        OpenSplit.paths (String.toList "/a") (String.toList "b!/c") := by
  refine ⟨fun loc h => ?_, by decide, by decide⟩
  unfold accessOpenSplit
  rw [h]

/-- Witness for C7 at the separator-free locator `"/plain.zip"`. -/
theorem accessOpen_split_spec_w :
    splitFirst (String.toList "/plain.zip") = none ∧
      accessOpenSplit (String.toList "/plain.zip") = OpenSplit.notMine :=
  ⟨by decide, accessOpen_split_spec.1 (String.toList "/plain.zip") (by decide)⟩

/-- Reinterpretation of the unsigned 64-bit `uLong` seek offset as
`int64_t` (the C initialisation `int64_t pos = offset`). -/
def int64OfULong (n : Nat) : Int :=
  if n % 2 ^ 64 < 2 ^ 63 then ((n % 2 ^ 64 : Nat) : Int)
  else ((n % 2 ^ 64 : Nat) : Int) - 2 ^ 64

/-- The `origin` argument of the seek shim: `SEEK_CUR`, `SEEK_SET`,
`SEEK_END`, or any other value (the switch's default case). -/
inductive SeekOrigin where
  | seekCur
  | seekSet
  | seekEnd
  | other
  deriving DecidableEq, Repr

/-- `ZipIO_Seek` (zipaccess.c part, lines 1266-1291): start from the
offset reinterpreted as `int64_t`; add the current stream offset
(`vlc_stream_Tell`) for `SEEK_CUR`, nothing for `SEEK_SET`, the stream
size (`stream_Size`) for `SEEK_END`; any other origin returns -1; a
negative resulting position returns -1; otherwise `vlc_stream_Seek` is
called, its result (`underlyingSeekOk`) is DISCARDED, and the shim
returns 0 — the source comments this as a deliberate FIXME for streams
that cannot seek to end.  `seekDelta` is the switch over the origin: the
summand added to the offset, or `none` for the default case (which
returns -1 before any position is computed). -/
def seekDelta (tell size : Int) : SeekOrigin → Option Int
  | .seekCur => some tell
  | .seekSet => some 0
  | .seekEnd => some size
  | .other => none

def ZipIO_Seek (tell size : Int) (underlyingSeekOk : Bool) (offset : Nat)
    (origin : SeekOrigin) : Int :=
  match seekDelta tell size origin with
  | none => -1
  | some d =>
    let pos : Int := int64OfULong offset + d
    if pos < 0 then -1 else 0

/-- The absolute position the CLAIM's wording prescribes: the offset plus,
respectively, the current stream offset, zero, or the stream size. -/
def seekPos (tell size : Int) (offset : Nat) : SeekOrigin → Int
  | .seekCur => int64OfULong offset + tell
  | .seekSet => int64OfULong offset
  | .seekEnd => int64OfULong offset + size
  | .other => 0

/-- C8: for every call with origin from-current, from-start or from-end,
the shim computes the absolute position as `seekPos` says; a negative
position is rejected with -1; a non-negative position reports success (0)
for every value of the underlying stream seek's result — the theorem
holds for both values of `underlyingSeekOk`, so the shim's answer never
depends on whether the underlying seek failed. -/
theorem zipIOSeek_spec (tell size : Int) (u : Bool) (offset : Nat)
    (origin : SeekOrigin) (h : origin ≠ SeekOrigin.other) :
    (seekPos tell size offset origin < 0 →
        ZipIO_Seek tell size u offset origin = -1) ∧
      (0 ≤ seekPos tell size offset origin →
        ZipIO_Seek tell size u offset origin = 0) := by
  cases origin with
  | other => exact absurd rfl h
  | seekCur =>
    refine ⟨fun hp => ?_, fun hp => ?_⟩ <;>
      simp only [ZipIO_Seek, seekDelta, seekPos] at hp ⊢
    · rw [if_pos hp]
    · rw [if_neg (not_lt.mpr hp)]
  | seekSet =>
    refine ⟨fun hp => ?_, fun hp => ?_⟩ <;>
      simp only [ZipIO_Seek, seekDelta, seekPos, add_zero] at hp ⊢
    · rw [if_pos hp]
    · rw [if_neg (not_lt.mpr hp)]
  | seekEnd =>
    refine ⟨fun hp => ?_, fun hp => ?_⟩ <;>
      simp only [ZipIO_Seek, seekDelta, seekPos] at hp ⊢
    · rw [if_pos hp]
    · rw [if_neg (not_lt.mpr hp)]

/-- Witness for C8: seeking from start with offset `2^63` (reinterpreted
as the negative `int64` value `-2^63`) is rejected with -1; seeking 3
bytes from current position 5 reports success whether the underlying
seek succeeds or fails. -/
theorem zipIOSeek_spec_w :
    ZipIO_Seek 5 10 false (2 ^ 63) SeekOrigin.seekSet = -1 ∧
      ZipIO_Seek 5 10 false 3 SeekOrigin.seekCur = 0 ∧
      ZipIO_Seek 5 10 true 3 SeekOrigin.seekCur = 0 :=
  ⟨(zipIOSeek_spec 5 10 false (2 ^ 63) SeekOrigin.seekSet (by decide)).1
      (by decide),
   (zipIOSeek_spec 5 10 false 3 SeekOrigin.seekCur (by decide)).2 (by decide),
   (zipIOSeek_spec 5 10 true 3 SeekOrigin.seekCur (by decide)).2 (by decide)⟩
